import Mathlib

/-!
# Verification of the n8n-nodes-rcon protocol engines

Shallow embedding of the two RCON protocol clients of this repository:

* `Source` — the Source RCON client (`src/RconClient.ts`): packet
  encoding (`sendPacket`), incremental framing (`handleData`), packet
  parsing (`parsePacket`), dispatch (`handlePacket`), `execute`,
  `disconnect`/`cleanup`.
* `BattlEye` — the BattlEye RCON client (`src/BattlEyeRconClient.ts`):
  CRC32 (`calculateCRC32`), datagram build (`sendPacket`), datagram
  validation and dispatch (`handleMessage`), `execute`, heartbeat,
  `disconnect`/`cleanup`.

Bytes are modelled as `Nat` (each byte `< 256` where it matters); byte
buffers as `List Nat`; JavaScript 32-bit signed reads/writes as `Int`
with explicit two's-complement conversion mod `2 ^ 32`.  Strings held
in packet bodies are modelled as the byte lists the `Buffer`
encode/decode calls produce.  Promise resolution is modelled
synchronously: the single-threaded cooperative scheduling of the source
means a `resolve`/`reject` callback's continuation runs with no
interleaved engine step, so it is folded into the step function that
fires it.
-/

/-- Connection lifecycle states (`ConnectionState` in `types.ts`). -/
inductive ConnectionState
  | disconnected
  | connecting
  | connected
  | authenticating
  | authenticated
  | error
deriving DecidableEq

/-- Error taxonomy (`RconErrorType` in `types.ts`). -/
inductive RconErrorType
  | connectionFailed
  | authFailed
  | timeout
  | invalidPacket
  | notAuthenticated
  | socketError
  | commandFailed
deriving DecidableEq

/-- `buf[i]`, reading 0 out of range.  In-range uses only. -/
def byteAt (buf : List Nat) (i : Nat) : Nat := buf.getD i 0

/-- `Buffer.readUInt32LE(buf, off)`: the unsigned little-endian 32-bit
value at offset `off`.  Out-of-range reads (which would throw in the
source) return 0; every use below is within bounds. -/
def readUInt32At (buf : List Nat) (off : Nat) : Nat :=
  match buf.drop off with
  | b0 :: b1 :: b2 :: b3 :: _ => b0 + 256 * b1 + 65536 * b2 + 16777216 * b3
  | _ => 0

/-- `Buffer.readInt32LE(buf, off)`: signed little-endian 32-bit read. -/
def readInt32LE (buf : List Nat) (off : Nat) : Int :=
  let n := readUInt32At buf off
  if n < 2147483648 then (n : Int) else (n : Int) - 4294967296

/-- The 4 bytes `Buffer.writeInt32LE(x)` emits (two's complement,
little-endian). -/
def writeInt32LE (x : Int) : List Nat :=
  let n := (x % 4294967296).toNat
  [n % 256, n / 256 % 256, n / 65536 % 256, n / 16777216 % 256]

/-- The 4 bytes `Buffer.writeUInt32LE(n)` emits (little-endian). -/
def writeUInt32LE (n : Nat) : List Nat :=
  [n % 256, n / 256 % 256, n / 65536 % 256, n / 16777216 % 256]

theorem readUInt32At_cons (a : Nat) (l : List Nat) (n : Nat) :
    readUInt32At (a :: l) (n + 1) = readUInt32At l n := rfl

theorem readUInt32At_writeUInt32LE (n : Nat) (r : List Nat)
    (h : n < 4294967296) :
    readUInt32At (writeUInt32LE n ++ r) 0 = n := by
  simp only [writeUInt32LE, List.cons_append, List.nil_append,
    readUInt32At, List.drop_zero]
  omega

theorem readInt32LE_writeInt32LE (x : Int) (r : List Nat)
    (h1 : -2147483648 ≤ x) (h2 : x < 2147483648) :
    readInt32LE (writeInt32LE x ++ r) 0 = x := by
  simp only [writeInt32LE, List.cons_append, List.nil_append,
    readInt32LE, readUInt32At, List.drop_zero]
  split <;> omega

namespace Source

/-- A parsed Source RCON packet (`RconPacket` in `types.ts`); the body
is the byte list between the header and the two-byte trailer. -/
structure RconPacket where
  size : Int
  id : Int
  type : Int
  body : List Nat
deriving DecidableEq

/-- `RconClient.sendPacket`: `size = 4 + 4 + |body| + 2`; reject with
`INVALID_PACKET` when `size > 4110` (`RCON_CONSTANTS.MAX_PACKET_SIZE`);
otherwise emit little-endian `size`, `id`, `type`, the body bytes, and
two null bytes. -/
def sendPacket (id type : Int) (body : List Nat) :
    Except RconErrorType (List Nat) :=
  let size := 4 + 4 + body.length + 2
  if 4110 < size then .error .invalidPacket
  else .ok (writeInt32LE size ++ writeInt32LE id ++ writeInt32LE type ++
    body ++ [0, 0])

/-- `RconClient.parsePacket`: `id` and `type` at offsets 0 and 4 of the
packet buffer, body of length `size - 10` starting at offset 8 (the two
trailing padding bytes are discarded). -/
def parsePacket (size : Int) (buffer : List Nat) : RconPacket :=
  { size := size
    id := readInt32LE buffer 0
    type := readInt32LE buffer 4
    body := (buffer.drop 8).take (size - 10).toNat }

/-- Result of one `handleData` framing pass: packets produced, the
remaining receive buffer, and whether the desynchronisation branch
(invalid `size`, buffer cleared) was avoided. -/
structure FramerResult where
  packets : List RconPacket
  rest : List Nat
  ok : Bool
deriving DecidableEq

/-- The `while` loop of `RconClient.handleData`, with explicit fuel so
that the definition is structurally recursive (each iteration consumes
at least 14 bytes, so `buf.length` fuel always suffices; see
`framerGo_fuel`).  While at least 4 bytes are buffered: read `size`;
if `size < 10` or `size > 4110` clear the buffer and stop (`ok :=
false`); if fewer than `size + 4` bytes are buffered stop and wait;
otherwise consume `size + 4` bytes, parse a packet, and continue. -/
def framerGo : List Nat → Nat → FramerResult
  | buf, 0 => ⟨[], buf, true⟩
  | buf, fuel + 1 =>
    if buf.length < 4 then ⟨[], buf, true⟩
    else
      let size := readInt32LE buf 0
      if size < 10 ∨ 4110 < size then ⟨[], [], false⟩
      else if (buf.length : Int) < size + 4 then ⟨[], buf, true⟩
      else
        let packetBuffer := (buf.drop 4).take size.toNat
        let r := framerGo (buf.drop (size.toNat + 4)) fuel
        ⟨parsePacket size packetBuffer :: r.packets, r.rest, r.ok⟩

/-- The framing pass on a buffer. -/
def framerLoop (buf : List Nat) : FramerResult := framerGo buf buf.length

/-- `RconClient.handleData`: append the chunk to the receive buffer and
run the framing loop. -/
def handleData (buf data : List Nat) : FramerResult :=
  framerLoop (buf ++ data)

/-- The framing loop's result does not depend on the fuel, provided the
fuel is at least the buffer length. -/
theorem framerGo_fuel (f : Nat) :
    ∀ (g : Nat) (buf : List Nat), buf.length ≤ f → buf.length ≤ g →
      framerGo buf f = framerGo buf g := by
  induction f with
  | zero =>
    intro g buf hf _
    have hb : buf = [] := List.length_eq_zero.mp (Nat.le_zero.mp hf)
    subst hb
    cases g with
    | zero => rfl
    | succ g => simp [framerGo]
  | succ f ih =>
    intro g buf hf hg
    cases g with
    | zero =>
      have hb : buf = [] := List.length_eq_zero.mp (Nat.le_zero.mp hg)
      subst hb
      simp [framerGo]
    | succ g =>
      simp only [framerGo]
      split
      · rfl
      · rename_i h4
        split
        · rfl
        · rename_i hsz
          split
          · rfl
          · rename_i hlen
            have hge : 10 ≤ readInt32LE buf 0 := by omega
            have hle : (readInt32LE buf 0) + 4 ≤ (buf.length : Int) := by
              omega
            have hdrop :
                (buf.drop ((readInt32LE buf 0).toNat + 4)).length ≤
                  buf.length - 14 := by
              rw [List.length_drop]
              omega
            have h1 : (buf.drop ((readInt32LE buf 0).toNat + 4)).length ≤ f := by
              omega
            have h2 : (buf.drop ((readInt32LE buf 0).toNat + 4)).length ≤ g := by
              omega
            rw [ih g _ h1 h2]

/-- Unfolding `framerLoop` when fewer than 4 bytes are buffered. -/
theorem framerLoop_small (buf : List Nat) (h : buf.length < 4) :
    framerLoop buf = ⟨[], buf, true⟩ := by
  unfold framerLoop
  cases hl : buf.length with
  | zero =>
    have hb : buf = [] := List.length_eq_zero.mp hl
    subst hb; rfl
  | succ n =>
    simp only [framerGo]
    rw [if_pos h]

/-- Unfolding `framerLoop` in the desynchronisation branch. -/
theorem framerLoop_desync (buf : List Nat) (h4 : 4 ≤ buf.length)
    (hs : readInt32LE buf 0 < 10 ∨ 4110 < readInt32LE buf 0) :
    framerLoop buf = ⟨[], [], false⟩ := by
  unfold framerLoop
  cases hl : buf.length with
  | zero => omega
  | succ n =>
    simp only [framerGo]
    rw [if_neg (by omega), if_pos hs]

/-- Unfolding `framerLoop` when a valid `size` is buffered but the
packet is incomplete. -/
theorem framerLoop_wait (buf : List Nat) (h4 : 4 ≤ buf.length)
    (hs : 10 ≤ readInt32LE buf 0 ∧ readInt32LE buf 0 ≤ 4110)
    (hw : (buf.length : Int) < readInt32LE buf 0 + 4) :
    framerLoop buf = ⟨[], buf, true⟩ := by
  unfold framerLoop
  cases hl : buf.length with
  | zero => omega
  | succ n =>
    simp only [framerGo]
    rw [if_neg (by omega), if_neg (by omega), if_pos hw]

/-- Unfolding `framerLoop` when a complete packet is buffered. -/
theorem framerLoop_emit (buf : List Nat) (h4 : 4 ≤ buf.length)
    (hs : 10 ≤ readInt32LE buf 0 ∧ readInt32LE buf 0 ≤ 4110)
    (hc : readInt32LE buf 0 + 4 ≤ (buf.length : Int)) :
    framerLoop buf =
      ⟨parsePacket (readInt32LE buf 0) ((buf.drop 4).take (readInt32LE buf 0).toNat) ::
          (framerLoop (buf.drop ((readInt32LE buf 0).toNat + 4))).packets,
        (framerLoop (buf.drop ((readInt32LE buf 0).toNat + 4))).rest,
        (framerLoop (buf.drop ((readInt32LE buf 0).toNat + 4))).ok⟩ := by
  conv_lhs => unfold framerLoop
  cases hl : buf.length with
  | zero => omega
  | succ n =>
    simp only [framerGo]
    rw [if_neg (by omega), if_neg (by omega), if_neg (by omega)]
    have hrest : (buf.drop ((readInt32LE buf 0).toNat + 4)).length ≤ n := by
      rw [List.length_drop]
      omega
    rw [framerGo_fuel n _ _ hrest (le_refl _)]
    rfl

end Source

theorem writeInt32LE_length (x : Int) : (writeInt32LE x).length = 4 := rfl

theorem drop_four_writeInt32LE (y : Int) (r : List Nat) :
    (writeInt32LE y ++ r).drop 4 = r := rfl

theorem drop_eight_writeInt32LE (a b : Int) (r : List Nat) :
    (writeInt32LE a ++ (writeInt32LE b ++ r)).drop 8 = r := rfl

theorem readInt32LE_append_four (y : Int) (r : List Nat) :
    readInt32LE (writeInt32LE y ++ r) 4 = readInt32LE r 0 := rfl

/-- **C1.** For every valid Source packet `P` with body length at most
4086 bytes, encoding `P` (`sendPacket`: `size = 4 + 4 + |body| + 2`,
rejected with `InvalidPacket` only when `size > 4110`, emitted as
little-endian `size`, `id`, `type`, body, two null bytes) and then
decoding the resulting bytes (`handleData` framing + `parsePacket`)
yields exactly `P` back: one packet, empty residual buffer, no
desynchronisation. -/
theorem c1_source_encode_decode_roundtrip (i ty : Int) (body : List Nat)
    (hi : -2147483648 ≤ i ∧ i < 2147483648)
    (hty : -2147483648 ≤ ty ∧ ty < 2147483648)
    (hlen : body.length ≤ 4086) :
    ∃ w, Source.sendPacket i ty body = Except.ok w ∧
      Source.framerLoop w =
        ⟨[⟨((4 + 4 + body.length + 2 : Nat) : Int), i, ty, body⟩], [], true⟩ := by
  refine ⟨writeInt32LE ((4 + 4 + body.length + 2 : Nat) : Int) ++
      (writeInt32LE i ++ (writeInt32LE ty ++ (body ++ [0, 0]))), ?_, ?_⟩
  · simp only [Source.sendPacket]
    rw [if_neg (by omega)]
    simp [List.append_assoc]
  · set n : Nat := 4 + 4 + body.length + 2 with hn
    set rest : List Nat := writeInt32LE i ++ (writeInt32LE ty ++ (body ++ [0, 0]))
      with hrest
    set w : List Nat := writeInt32LE (n : Int) ++ rest with hw
    have hrestlen : rest.length = n := by
      simp [hrest, writeInt32LE]
      omega
    have hwlen : w.length = n + 4 := by
      simp [hw, hrestlen, writeInt32LE_length]
      omega
    have hread : readInt32LE w 0 = (n : Int) :=
      readInt32LE_writeInt32LE _ _ (by omega) (by omega)
    rw [Source.framerLoop_emit w (by omega) (by rw [hread]; constructor <;> omega)
      (by rw [hread, hwlen]; push_cast; omega)]
    rw [hread]
    have htn : ((n : Int)).toNat = n := Int.toNat_natCast n
    rw [htn]
    have hdropall : w.drop (n + 4) = [] := by
      rw [← hwlen]; exact List.drop_length w
    rw [hdropall, Source.framerLoop_small [] (by simp)]
    have hpb : (w.drop 4).take n = rest := by
      rw [hw, drop_four_writeInt32LE, ← hrestlen]
      exact List.take_length rest
    rw [hpb]
    have hid : readInt32LE rest 0 = i := by
      rw [hrest]
      exact readInt32LE_writeInt32LE i _ hi.1 hi.2
    have hty2 : readInt32LE rest 4 = ty := by
      rw [hrest, readInt32LE_append_four]
      exact readInt32LE_writeInt32LE ty _ hty.1 hty.2
    have hbody : (rest.drop 8).take ((n : Int) - 10).toNat = body := by
      rw [hrest, drop_eight_writeInt32LE]
      have h10 : ((n : Int) - 10).toNat = body.length := by omega
      rw [h10]
      exact List.take_left body [0, 0]
    simp only [Source.parsePacket, hid, hty2, hbody]

theorem readUInt32At_append_left (buf d : List Nat) (h : 4 ≤ buf.length) :
    readUInt32At (buf ++ d) 0 = readUInt32At buf 0 := by
  match buf with
  | b0 :: b1 :: b2 :: b3 :: t => rfl
  | [] | [_] | [_, _] | [_, _, _] => simp at h

theorem readInt32LE_append_left (buf d : List Nat) (h : 4 ≤ buf.length) :
    readInt32LE (buf ++ d) 0 = readInt32LE buf 0 := by
  simp only [readInt32LE, readUInt32At_append_left buf d h]

namespace Source

/-- Feeding a buffer that stopped in the waiting state back into the
framing loop produces nothing new: the residual buffer after a
non-desynchronised pass is quiescent. -/
theorem framerLoop_rest_quiescent (n : Nat) :
    ∀ buf : List Nat, buf.length = n → (framerLoop buf).ok = true →
      framerLoop ((framerLoop buf).rest) = ⟨[], (framerLoop buf).rest, true⟩ := by
  induction n using Nat.strong_induction_on with
  | _ n ih =>
    intro buf hn hok
    by_cases h4 : buf.length < 4
    · rw [framerLoop_small buf h4]
      exact framerLoop_small buf h4
    · push_neg at h4
      by_cases hbad : readInt32LE buf 0 < 10 ∨ 4110 < readInt32LE buf 0
      · rw [framerLoop_desync buf h4 hbad] at hok
        simp at hok
      · push_neg at hbad
        obtain ⟨hge, hle⟩ := hbad
        by_cases hwait : (buf.length : Int) < readInt32LE buf 0 + 4
        · rw [framerLoop_wait buf h4 ⟨hge, hle⟩ hwait]
          exact framerLoop_wait buf h4 ⟨hge, hle⟩ hwait
        · push_neg at hwait
          rw [framerLoop_emit buf h4 ⟨hge, hle⟩ hwait] at hok ⊢
          have hlt : (buf.drop ((readInt32LE buf 0).toNat + 4)).length < n := by
            rw [List.length_drop]
            omega
          simp only at hok ⊢
          exact ih _ hlt _ rfl hok

/-- Decomposition of one framing pass over `buf ++ d` into the pass
over `buf` followed by a pass over the residue extended with `d`,
provided the combined pass never desynchronises. -/
theorem framerLoop_append (n : Nat) :
    ∀ buf d : List Nat, buf.length = n →
      (framerLoop (buf ++ d)).ok = true →
      (framerLoop buf).ok = true ∧
      (framerLoop (buf ++ d)).packets =
        (framerLoop buf).packets ++
          (framerLoop ((framerLoop buf).rest ++ d)).packets ∧
      (framerLoop (buf ++ d)).rest =
        (framerLoop ((framerLoop buf).rest ++ d)).rest ∧
      (framerLoop (buf ++ d)).ok =
        (framerLoop ((framerLoop buf).rest ++ d)).ok := by
  induction n using Nat.strong_induction_on with
  | _ n ih =>
    intro buf d hn hok
    by_cases h4 : buf.length < 4
    · rw [framerLoop_small buf h4]
      simp
    · push_neg at h4
      have h4' : 4 ≤ (buf ++ d).length := by
        rw [List.length_append]; omega
      have hr : readInt32LE (buf ++ d) 0 = readInt32LE buf 0 :=
        readInt32LE_append_left buf d h4
      by_cases hbad : readInt32LE buf 0 < 10 ∨ 4110 < readInt32LE buf 0
      · rw [framerLoop_desync (buf ++ d) h4' (by rw [hr]; exact hbad)] at hok
        simp at hok
      · push_neg at hbad
        obtain ⟨hge, hle⟩ := hbad
        by_cases hwait : (buf.length : Int) < readInt32LE buf 0 + 4
        · rw [framerLoop_wait buf h4 ⟨hge, hle⟩ hwait]
          simp
        · push_neg at hwait
          have hc' : readInt32LE (buf ++ d) 0 + 4 ≤ ((buf ++ d).length : Int) := by
            rw [hr, List.length_append]
            push_cast
            omega
          have ktoNat : (readInt32LE buf 0).toNat + 4 ≤ buf.length := by omega
          have hdrop : (buf ++ d).drop ((readInt32LE buf 0).toNat + 4) =
              buf.drop ((readInt32LE buf 0).toNat + 4) ++ d :=
            List.drop_append_of_le_length ktoNat
          have htake4 : (buf ++ d).drop 4 = buf.drop 4 ++ d :=
            List.drop_append_of_le_length (by omega)
          have htake : ((buf ++ d).drop 4).take (readInt32LE buf 0).toNat =
              (buf.drop 4).take (readInt32LE buf 0).toNat := by
            rw [htake4]
            exact List.take_append_of_le_length (by rw [List.length_drop]; omega)
          rw [framerLoop_emit (buf ++ d) h4' (by rw [hr]; exact ⟨hge, hle⟩) hc']
            at hok ⊢
          rw [framerLoop_emit buf h4 ⟨hge, hle⟩ hwait]
          simp only [hr, hdrop, htake] at hok ⊢
          have hlt : (buf.drop ((readInt32LE buf 0).toNat + 4)).length < n := by
            rw [List.length_drop]
            omega
          obtain ⟨hok1, hp, hrst, hko⟩ :=
            ih _ hlt (buf.drop ((readInt32LE buf 0).toNat + 4)) d rfl hok
          exact ⟨hok1, by simp [hp], hrst, hko⟩

/-- Repeated `handleData` calls, one per chunk, accumulating the framed
packets across calls (the receive buffer persists between calls). -/
def feedChunks (buf : List Nat) : List (List Nat) → List RconPacket × List Nat
  | [] => ([], buf)
  | c :: cs =>
    let r := framerLoop (buf ++ c)
    let r2 := feedChunks r.rest cs
    (r.packets ++ r2.1, r2.2)

/-- Chunked feeding agrees with one-shot framing of the concatenation,
for a quiescent starting buffer, provided the one-shot pass never
desynchronises. -/
theorem feedChunks_eq (cs : List (List Nat)) :
    ∀ buf : List Nat, framerLoop buf = ⟨[], buf, true⟩ →
      (framerLoop (buf ++ cs.flatten)).ok = true →
      feedChunks buf cs =
        ((framerLoop (buf ++ cs.flatten)).packets,
          (framerLoop (buf ++ cs.flatten)).rest) := by
  induction cs with
  | nil =>
    intro buf hq hok
    simp only [List.flatten_nil, List.append_nil, feedChunks, hq]
  | cons c cs ih =>
    intro buf hq hok
    have hassoc : buf ++ (c :: cs).flatten = (buf ++ c) ++ cs.flatten := by
      simp [List.flatten_cons, List.append_assoc]
    rw [hassoc] at hok ⊢
    obtain ⟨hok1, hp, hrst, hko⟩ :=
      framerLoop_append (buf ++ c).length (buf ++ c) cs.flatten rfl hok
    have hquiet :
        framerLoop ((framerLoop (buf ++ c)).rest) =
          ⟨[], (framerLoop (buf ++ c)).rest, true⟩ :=
      framerLoop_rest_quiescent (buf ++ c).length (buf ++ c) rfl hok1
    have hok2 : (framerLoop ((framerLoop (buf ++ c)).rest ++ cs.flatten)).ok = true := by
      rw [← hko]; exact hok
    have := ih ((framerLoop (buf ++ c)).rest) hquiet hok2
    simp only [feedChunks, this, hp, hrst]

end Source

/-- **C9 (counterexample).** Framing is *not* chunk-independent for
arbitrary byte streams: on `[0,0,0,0]` followed by a valid 14-byte
packet, a single `handleData` call reads the invalid size 0, clears the
whole buffer, and produces no packet, while byte-at-a-time feeding
clears only the four garbage bytes and then frames the valid packet. -/
theorem c9_counterexample :
    (Source.framerLoop
        [0, 0, 0, 0, 10, 0, 0, 0, 1, 0, 0, 0, 0, 0, 0, 0, 0, 0]).packets ≠
      (Source.feedChunks []
        (([0, 0, 0, 0, 10, 0, 0, 0, 1, 0, 0, 0, 0, 0, 0, 0, 0, 0] :
            List Nat).map fun b => [b])).1 := by
  decide

/-- **C9 (amended).** For every Source byte stream `S` on which the
one-shot framing pass never takes the desynchronisation branch (every
`size` field read is within `[10, 4110]`), feeding `S` in one
`handleData` call produces the same packet sequence as feeding `S` one
byte at a time. -/
theorem c9_chunk_independent_amended (S : List Nat)
    (hok : (Source.framerLoop S).ok = true) :
    (Source.feedChunks [] (S.map fun b => [b])).1 =
      (Source.framerLoop S).packets := by
  have hjoin : ((S.map fun b => [b]) : List (List Nat)).flatten = S := by
    clear hok
    induction S with
    | nil => rfl
    | cons a t iht => simp [iht]
  have h0 : Source.framerLoop ([] : List Nat) = ⟨[], [], true⟩ :=
    Source.framerLoop_small [] (by simp)
  have h := Source.feedChunks_eq (S.map fun b => [b]) [] h0
    (by rw [List.nil_append, hjoin]; exact hok)
  rw [List.nil_append, hjoin] at h
  rw [h]

theorem c9_chunk_independent_amended_witness :
    (Source.framerLoop
        [10, 0, 0, 0, 1, 0, 0, 0, 0, 0, 0, 0, 0, 0]).ok = true ∧
      (Source.feedChunks []
          (([10, 0, 0, 0, 1, 0, 0, 0, 0, 0, 0, 0, 0, 0] :
              List Nat).map fun b => [b])).1 =
        (Source.framerLoop
            [10, 0, 0, 0, 1, 0, 0, 0, 0, 0, 0, 0, 0, 0]).packets :=
  ⟨by decide,
    c9_chunk_independent_amended
      [10, 0, 0, 0, 1, 0, 0, 0, 0, 0, 0, 0, 0, 0] (by decide)⟩

theorem xor_div_two (x y : Nat) : (x ^^^ y) / 2 = x / 2 ^^^ y / 2 := by
  apply Nat.eq_of_testBit_eq
  intro i
  rw [← Nat.testBit_succ (x ^^^ y) i, Nat.testBit_xor, Nat.testBit_xor,
    ← Nat.testBit_succ x i, ← Nat.testBit_succ y i]

namespace BattlEye

/-- The CRC-32 polynomial used by `calculateCRC32`. -/
def crc32Poly : Nat := 0xEDB88320

/-- One iteration of the inner `for (j = 0; j < 8; j++)` loop of
`BattlEyeRconClient.calculateCRC32`: test the low bit, shift right one
bit (`>>> 1`), and XOR the polynomial in when the bit was set.  All
values stay below `2 ^ 32`. -/
def crc32Round (crc : Nat) : Nat :=
  if crc % 2 = 1 then crc / 2 ^^^ crc32Poly else crc / 2

/-- `k` iterations of the inner loop. -/
def crc32Rounds : Nat → Nat → Nat
  | 0, crc => crc
  | k + 1, crc => crc32Rounds k (crc32Round crc)

/-- The per-byte body of `calculateCRC32`'s outer loop:
`crc ^= data[i]` followed by the eight inner iterations. -/
def crc32UpdateByte (crc b : Nat) : Nat := crc32Rounds 8 (crc ^^^ b)

/-- `BattlEyeRconClient.calculateCRC32`: initial value `0xFFFFFFFF`,
per-byte update, final XOR with `0xFFFFFFFF` (the source's
`>>> 0` keeps the result an unsigned 32-bit value, which the `Nat`
model gives for free — see `calculateCRC32_lt`). -/
def calculateCRC32 (data : List Nat) : Nat :=
  (data.foldl crc32UpdateByte 0xFFFFFFFF) ^^^ 0xFFFFFFFF

/-- Modelled from the spec (§4.2): one step of the standard *bit-serial*
CRC-32 — XOR the next message bit into the low end of the register,
then shift right, reducing by the polynomial when a 1 falls off. -/
def crc32BitStep (crc : Nat) (bit : Bool) : Nat :=
  let c := crc ^^^ (if bit then 1 else 0)
  if c % 2 = 1 then c / 2 ^^^ crc32Poly else c / 2

/-- The bits of a byte, least significant first — the order in which
the reflected CRC-32 consumes them. -/
def byteBitsLE (b : Nat) : List Bool := (List.range 8).map b.testBit

/-- Modelled from the spec (§4.2): the standard CRC-32 of a byte
sequence — polynomial `0xEDB88320`, bitwise (bit-serial, LSB-first)
algorithm, initial value `0xFFFFFFFF`, final XOR with `0xFFFFFFFF`. -/
def crc32BitwiseSpec (data : List Nat) : Nat :=
  (List.foldl crc32BitStep 0xFFFFFFFF (data.map byteBitsLE).flatten) ^^^
    0xFFFFFFFF

theorem crc32Round_xor (crc b : Nat) :
    crc32Round (crc ^^^ b) = crc32BitStep crc (b.testBit 0) ^^^ b / 2 := by
  simp only [crc32Round, crc32BitStep]
  set e : Nat := if b.testBit 0 then 1 else 0 with he
  have hbit : e.testBit 0 = b.testBit 0 := by
    cases hb : b.testBit 0 <;> simp [he, hb]
  have hpar : ((crc ^^^ b) % 2 = 1) ↔ ((crc ^^^ e) % 2 = 1) := by
    have h1 : (crc ^^^ b).testBit 0 = (crc ^^^ e).testBit 0 := by
      rw [Nat.testBit_xor, Nat.testBit_xor, hbit]
    rw [Nat.testBit_zero, Nat.testBit_zero] at h1
    exact decide_eq_decide.mp h1
  have hdiv : (crc ^^^ e) / 2 = crc / 2 := by
    rw [xor_div_two]
    cases hb : b.testBit 0 <;> simp [he, hb]
  by_cases hz : (crc ^^^ b) % 2 = 1
  · rw [if_pos hz, if_pos (hpar.mp hz), hdiv, xor_div_two,
      Nat.xor_assoc, Nat.xor_assoc, Nat.xor_comm (b / 2) crc32Poly]
  · rw [if_neg hz, if_neg (fun hh => hz (hpar.mpr hh)), hdiv, xor_div_two]

theorem crc32Rounds_xor (k : Nat) :
    ∀ crc b : Nat, crc32Rounds k (crc ^^^ b) =
      (List.foldl crc32BitStep crc ((List.range k).map b.testBit)) ^^^
        b / 2 ^ k := by
  induction k with
  | zero =>
    intro crc b
    simp [crc32Rounds]
  | succ k ih =>
    intro crc b
    show crc32Rounds k (crc32Round (crc ^^^ b)) = _
    rw [crc32Round_xor crc b, ih (crc32BitStep crc (b.testBit 0)) (b / 2),
      List.range_succ_eq_map, List.map_cons, List.foldl_cons, List.map_map]
    congr 1
    · congr 1
      apply List.map_congr_left
      intro i _
      simp only [Function.comp_apply]
      exact (Nat.testBit_succ b i).symm
    · rw [Nat.div_div_eq_div_mul, pow_succ, Nat.mul_comm]

theorem crc32UpdateByte_eq_bits (crc b : Nat) (hb : b < 256) :
    crc32UpdateByte crc b = List.foldl crc32BitStep crc (byteBitsLE b) := by
  unfold crc32UpdateByte byteBitsLE
  rw [crc32Rounds_xor 8 crc b, (show (2 : Nat) ^ 8 = 256 by norm_num),
    Nat.div_eq_of_lt hb, Nat.xor_zero]

theorem foldl_crc32UpdateByte_eq (data : List Nat) :
    ∀ crc : Nat, (∀ x ∈ data, x < 256) →
      data.foldl crc32UpdateByte crc =
        List.foldl crc32BitStep crc (data.map byteBitsLE).flatten := by
  induction data with
  | nil =>
    intro crc _
    rfl
  | cons a t ih =>
    intro crc hd
    simp only [List.foldl_cons, List.map_cons, List.flatten_cons,
      List.foldl_append]
    rw [crc32UpdateByte_eq_bits crc a (hd a (by simp))]
    exact ih _ (fun x hx => hd x (by simp [hx]))

/-- The client CRC agrees with the standard bitwise CRC-32 on byte
input. -/
theorem calculateCRC32_eq_spec (data : List Nat) (hd : ∀ x ∈ data, x < 256) :
    calculateCRC32 data = crc32BitwiseSpec data := by
  unfold calculateCRC32 crc32BitwiseSpec
  rw [foldl_crc32UpdateByte_eq data _ hd]

end BattlEye

namespace BattlEye

theorem xor_lt_u32 (x y : Nat) (hx : x < 4294967296) (hy : y < 4294967296) :
    x ^^^ y < 4294967296 := by
  have h2 : (2 : Nat) ^ 32 = 4294967296 := by norm_num
  rw [← h2] at hx hy ⊢
  exact Nat.xor_lt_two_pow hx hy

theorem crc32Round_lt (crc : Nat) (h : crc < 4294967296) :
    crc32Round crc < 4294967296 := by
  unfold crc32Round
  split
  · exact xor_lt_u32 _ _ (by omega) (by decide)
  · omega

theorem crc32Rounds_lt (k : Nat) :
    ∀ crc : Nat, crc < 4294967296 → crc32Rounds k crc < 4294967296 := by
  induction k with
  | zero =>
    intro crc h
    exact h
  | succ k ih =>
    intro crc h
    exact ih _ (crc32Round_lt crc h)

theorem foldl_crc32UpdateByte_lt (data : List Nat) :
    ∀ crc : Nat, (∀ x ∈ data, x < 256) → crc < 4294967296 →
      data.foldl crc32UpdateByte crc < 4294967296 := by
  induction data with
  | nil =>
    intro crc _ h
    exact h
  | cons a t ih =>
    intro crc hd h
    simp only [List.foldl_cons]
    refine ih _ (fun x hx => hd x (by simp [hx])) ?_
    exact crc32Rounds_lt 8 _ (xor_lt_u32 _ _ h (by have := hd a (by simp); omega))

/-- The client CRC is an unsigned 32-bit value (the `>>> 0` in the
source). -/
theorem calculateCRC32_lt (data : List Nat) (hd : ∀ x ∈ data, x < 256) :
    calculateCRC32 data < 4294967296 := by
  unfold calculateCRC32
  exact xor_lt_u32 _ _ (foldl_crc32UpdateByte_lt data _ hd (by norm_num))
    (by norm_num)

/-- `BattlEyeRconClient.sendPacket`: checksum input is `{0xFF} ++
payload` (the separator byte is included); the datagram is `'B'`,
`'E'`, the CRC-32 little-endian, the `0xFF` separator, the payload —
`7 + |payload|` bytes in all. -/
def sendPacket (payload : List Nat) : List Nat :=
  let dataToChecksum := 255 :: payload
  let crc32 := calculateCRC32 dataToChecksum
  66 :: 69 :: (writeUInt32LE crc32 ++ (255 :: payload))

/-- The validation part of `BattlEyeRconClient.handleMessage`: reject
datagrams shorter than 7 bytes, without the `BE` prefix (Node's
`'ascii'` decoding masks each byte to 7 bits before comparing), without
the `0xFF` separator at offset 6, or whose carried CRC-32 differs from
the CRC-32 recomputed over `msg.subarray(6)` (separator plus payload).
On success the payload `msg.subarray(7)` is dispatched; failures are
dropped silently. -/
def validateMessage (msg : List Nat) : Option (List Nat) :=
  if msg.length < 7 then none
  else if ¬(byteAt msg 0 % 128 = 66 ∧ byteAt msg 1 % 128 = 69) then none
  else if byteAt msg 6 ≠ 255 then none
  else if readUInt32At msg 2 ≠ calculateCRC32 (msg.drop 6) then none
  else some (msg.drop 7)

theorem validateMessage_sendPacket (payload : List Nat)
    (hp : ∀ x ∈ payload, x < 256) :
    validateMessage (sendPacket payload) = some payload := by
  have hb : ∀ x ∈ 255 :: payload, x < 256 := by
    intro x hx
    rcases List.mem_cons.mp hx with h | h
    · omega
    · exact hp x h
  have hcrc : calculateCRC32 (255 :: payload) < 4294967296 :=
    calculateCRC32_lt _ hb
  set crc := calculateCRC32 (255 :: payload) with hc
  have hmsg : sendPacket payload =
      66 :: 69 :: (writeUInt32LE crc ++ (255 :: payload)) := rfl
  rw [hmsg]
  unfold validateMessage
  rw [if_neg (by simp [writeUInt32LE])]
  rw [if_neg (not_not_intro ⟨rfl, rfl⟩)]
  rw [if_neg (not_not_intro
    (show byteAt (66 :: 69 :: (writeUInt32LE crc ++ (255 :: payload))) 6 = 255
      from rfl))]
  rw [if_neg (not_not_intro
    (show readUInt32At (66 :: 69 :: (writeUInt32LE crc ++ (255 :: payload))) 2 =
        calculateCRC32 ((66 :: 69 :: (writeUInt32LE crc ++ (255 :: payload))).drop 6)
      from readUInt32At_writeUInt32LE crc (255 :: payload) hcrc))]
  rfl

end BattlEye

/-- **C2.** The BattlEye checksum computed by the client
(`calculateCRC32`) equals the standard CRC-32 — polynomial
`0xEDB88320`, bitwise algorithm, initial value `0xFFFFFFFF`, final XOR
with `0xFFFFFFFF`, an unsigned 32-bit result — on every byte sequence;
and on every outgoing packet the bytes following the `BE` magic are the
little-endian CRC-32 of `{0xFF} ++ payload` followed by the `0xFF`
separator and the payload: the separator byte is included in the
checksum input. -/
theorem c2_crc32_standard (data payload : List Nat)
    (hd : ∀ x ∈ data, x < 256) :
    BattlEye.calculateCRC32 data = BattlEye.crc32BitwiseSpec data ∧
    BattlEye.calculateCRC32 data < 4294967296 ∧
    (BattlEye.sendPacket payload).drop 2 =
      writeUInt32LE (BattlEye.calculateCRC32 (255 :: payload)) ++
        (255 :: payload) :=
  ⟨BattlEye.calculateCRC32_eq_spec data hd,
    BattlEye.calculateCRC32_lt data hd, rfl⟩

theorem c2_crc32_standard_witness :
    (∀ x ∈ ([255] : List Nat), x < 256) ∧
      (BattlEye.calculateCRC32 [255] = BattlEye.crc32BitwiseSpec [255] ∧
        BattlEye.calculateCRC32 [255] < 4294967296 ∧
        (BattlEye.sendPacket []).drop 2 =
          writeUInt32LE (BattlEye.calculateCRC32 (255 :: [])) ++ (255 :: [])) :=
  ⟨by decide, c2_crc32_standard [255] [] (by decide)⟩

/-- **C7.** For every BattlEye payload `Q` (of bytes), building a
datagram from `Q` and validating it back passes the length, `BE`
prefix, separator, and CRC checks and yields exactly `Q`. -/
theorem c7_battleye_build_parse_roundtrip (payload : List Nat)
    (hp : ∀ x ∈ payload, x < 256) :
    BattlEye.validateMessage (BattlEye.sendPacket payload) = some payload :=
  BattlEye.validateMessage_sendPacket payload hp

theorem c7_battleye_build_parse_roundtrip_witness :
    (∀ x ∈ ([1, 0, 104, 105] : List Nat), x < 256) ∧
      BattlEye.validateMessage (BattlEye.sendPacket [1, 0, 104, 105]) =
        some [1, 0, 104, 105] :=
  ⟨by decide, c7_battleye_build_parse_roundtrip [1, 0, 104, 105] (by decide)⟩

namespace BattlEye

/-- `BattlEyeRconClient` state.  `pendingCommands` models the
`Map<number, PendingCommand>` keyed by sequence number in insertion
order; an entry's runtime content (resolve/reject callbacks and timer)
is represented by its key, since the callbacks are observable only
through the events they fire.  `authPending` models the presence of the
transient `_authHandler` installed by `authenticate`. -/
structure Client where
  state : ConnectionState
  sequenceNumber : Nat
  pendingCommands : List Nat
  authPending : Bool
deriving DecidableEq

/-- Observable effects of one engine step: promise outcomes and emitted
events. -/
inductive Event
  | authenticated
  | connectFailed (e : RconErrorType)
  | commandResolved (seq : Nat) (response : List Nat)
  | serverMessage (msg : List Nat)
  | entryFailed (seq : Nat) (e : RconErrorType)
  | disconnected
deriving DecidableEq

/-- `getNextSequenceNumber`: return the current counter, then increment
modulo 256. -/
def getNextSequenceNumber (c : Client) : Nat × Client :=
  (c.sequenceNumber, { c with sequenceNumber := (c.sequenceNumber + 1) % 256 })

/-- `cleanup`: stop the heartbeat, close and drop the socket, reject
every pending command with `CONNECTION_FAILED` (`Connection closed`),
clear the table. -/
def cleanup (c : Client) : Client × List Event :=
  ({ c with pendingCommands := [] },
    c.pendingCommands.map (fun s => Event.entryFailed s .connectionFailed))

/-- `disconnect`: `cleanup`, transition to `DISCONNECTED`, emit
`disconnected`.  A total function — `disconnect` never fails. -/
def disconnect (c : Client) : Client × List Event :=
  let r := cleanup c
  ({ r.1 with state := .disconnected }, r.2 ++ [.disconnected])

/-- `execute`: reject with `NOT_AUTHENTICATED` unless the state is
`AUTHENTICATED`, touching nothing; otherwise allocate the next sequence
number, send `{0x01, seq, command}`, and register the in-flight entry
keyed by `seq` (`waitForResponse`; `Map.set` keeps an existing key's
position).  Result: updated client, datagrams written, synchronous
outcome. -/
def execute (c : Client) (command : List Nat) :
    Client × List (List Nat) × Except RconErrorType Unit :=
  if c.state ≠ ConnectionState.authenticated then
    (c, [], .error .notAuthenticated)
  else
    let r := getNextSequenceNumber c
    let seqNum := r.1
    let c1 := r.2
    let c2 := { c1 with pendingCommands :=
      if c1.pendingCommands.contains seqNum then c1.pendingCommands
      else c1.pendingCommands ++ [seqNum] }
    (c2, [sendPacket (1 :: seqNum :: command)], .ok ())

/-- One tick of the `startHeartbeat` interval: while `AUTHENTICATED`,
allocate the next sequence number and send the empty command
`{0x01, seq, ""}` fire-and-forget — no in-flight entry is registered.
A send failure is swallowed (`try`/`catch` around the synchronous
throw; asynchronous send errors are emitted as `error` events from the
callback), so the tick is a total function and never propagates a
fault. -/
def heartbeatTick (c : Client) : Client × List (List Nat) :=
  if c.state = ConnectionState.authenticated then
    let r := getNextSequenceNumber c
    (r.2, [sendPacket (1 :: r.1 :: [])])
  else (c, [])

/-- `handleLoginResponse`: payloads shorter than 2 bytes are dropped;
byte 1 equal to `0x01` is success.  The `_authHandler`, when installed,
resolves or rejects `authenticate`'s promise; `connect` then either
transitions to `AUTHENTICATED`, emits `authenticated` and starts the
heartbeat, or (catch branch) transitions to `ERROR`, runs `cleanup` and
surfaces `AUTH_FAILED`. -/
def handleLoginResponse (c : Client) (payload : List Nat) :
    Client × List Event × List (List Nat) :=
  if payload.length < 2 then (c, [], [])
  else if c.authPending then
    if byteAt payload 1 = 1 then
      ({ c with authPending := false, state := .authenticated },
        [.authenticated], [])
    else
      let c1 := { c with authPending := false, state := ConnectionState.error }
      let r := cleanup c1
      (r.1, r.2 ++ [.connectFailed .authFailed], [])
  else (c, [], [])

/-- `handleCommandResponse`: payloads shorter than 2 bytes are dropped;
byte 1 is the sequence number, the rest is the response.  With a
pending entry for that sequence: clear its timer, delete it, resolve
with the response.  Without one: nothing happens. -/
def handleCommandResponse (c : Client) (payload : List Nat) :
    Client × List Event × List (List Nat) :=
  if payload.length < 2 then (c, [], [])
  else
    let sequenceNumber := byteAt payload 1
    let response := payload.drop 2
    if c.pendingCommands.contains sequenceNumber then
      ({ c with pendingCommands := c.pendingCommands.erase sequenceNumber },
        [.commandResolved sequenceNumber response], [])
    else (c, [], [])

/-- `handleServerMessage`: payloads shorter than 2 bytes are dropped;
otherwise acknowledge with `{0x02, seq}` and emit `serverMessage`. -/
def handleServerMessage (c : Client) (payload : List Nat) :
    Client × List Event × List (List Nat) :=
  if payload.length < 2 then (c, [], [])
  else
    (c, [.serverMessage (payload.drop 2)],
      [sendPacket [2, byteAt payload 1]])

/-- `handleMessage`: validate the datagram (header, separator, CRC;
failures dropped silently), then dispatch on the payload's first byte:
`0x00` login response, `0x01` command response, `0x02` server message,
anything else logged and dropped.  (An empty payload would make
`payload.readUInt8(0)` throw in the source; it is not produced by any
conforming peer and is left as a drop here.) -/
def handleMessage (c : Client) (msg : List Nat) :
    Client × List Event × List (List Nat) :=
  match validateMessage msg with
  | none => (c, [], [])
  | some payload =>
    match payload.head? with
    | none => (c, [], [])
    | some 0 => handleLoginResponse c payload
    | some 1 => handleCommandResponse c payload
    | some 2 => handleServerMessage c payload
    | some _ => (c, [], [])

end BattlEye

namespace Source

/-- The role of a pending entry: the entry registered by `authenticate`
resolves or rejects the `connect()` promise; an entry registered by
`waitForResponse` resolves or rejects one `execute()`. -/
inductive EntryKind
  | auth
  | command
deriving DecidableEq

/-- An entry of `pendingResponses` (`PendingResponse` in
`RconClient.ts`): its resolve/reject callbacks and timer are
represented by `kind` (which continuation they fire — see
`applyResolve`/`applyReject`); `terminatorId` is `null` for the auth
entry and the allocated terminator id for a command (request ids are
drawn from a counter that starts at 1, so `some 0` never occurs and the
source's truthiness test `p.terminatorId && …` coincides with the
`Option` match). -/
structure PendingResponse where
  kind : EntryKind
  terminatorId : Option Int
  responses : List (List Nat)
deriving DecidableEq

/-- `RconClient` state: connection state, the request-id counter, the
insertion-ordered `pendingResponses` map, and the receive buffer. -/
structure Client where
  state : ConnectionState
  requestId : Nat
  pending : List (Int × PendingResponse)
  receiveBuffer : List Nat
deriving DecidableEq

/-- Observable effects of one engine step. -/
inductive Event
  | authenticated
  | connectFailed (e : RconErrorType)
  | commandResolved (id : Int) (response : List Nat)
  | commandRejected (id : Int) (e : RconErrorType)
  | entryFailed (id : Int) (e : RconErrorType)
  | disconnected
deriving DecidableEq

/-- `Map.get` on the insertion-ordered pending table. -/
def lookupEntry (i : Int) :
    List (Int × PendingResponse) → Option PendingResponse
  | [] => none
  | p :: ps => if p.1 = i then some p.2 else lookupEntry i ps

/-- `Map.delete`. -/
def deleteEntry (i : Int) :
    List (Int × PendingResponse) → List (Int × PendingResponse)
  | [] => []
  | p :: ps => if p.1 = i then ps else p :: deleteEntry i ps

/-- `Map.set`: replace in place when the key exists, append
otherwise. -/
def setEntry (i : Int) (e : PendingResponse) :
    List (Int × PendingResponse) → List (Int × PendingResponse)
  | [] => [(i, e)]
  | p :: ps => if p.1 = i then (i, e) :: ps else p :: setEntry i e ps

/-- The `for (const [commandId, p] of this.pendingResponses.entries())`
scan of `handlePacket`: the first entry whose `terminatorId` equals the
packet id. -/
def findTerminator (i : Int) :
    List (Int × PendingResponse) → Option (Int × PendingResponse)
  | [] => none
  | p :: ps => if p.2.terminatorId = some i then some p else findTerminator i ps

/-- `cleanup`: destroy the socket, reject every pending entry with
`CONNECTION_FAILED` (`Connection closed`), clear the table and the
receive buffer. -/
def cleanup (c : Client) : Client × List Event :=
  ({ c with pending := [], receiveBuffer := [] },
    c.pending.map (fun q => Event.entryFailed q.1 .connectionFailed))

/-- `disconnect`: `cleanup`, transition to `DISCONNECTED`, emit
`disconnected`.  A total function — `disconnect` never fails. -/
def disconnect (c : Client) : Client × List Event :=
  let r := cleanup c
  ({ r.1 with state := .disconnected }, r.2 ++ [.disconnected])

/-- The continuation fired by `pending.resolve(responses)`: for the
auth entry, `authenticate`'s promise resolves and `connect` continues —
`setState(AUTHENTICATED)`, emit `authenticated`; for a command entry,
`waitForResponse` resolves and `execute` returns the fragments joined
byte-wise (`responses.join('')`). -/
def applyResolve (c : Client) (entryId : Int) (e : PendingResponse)
    (rs : List (List Nat)) : Client × List Event :=
  match e.kind with
  | .auth => ({ c with state := .authenticated }, [.authenticated])
  | .command => (c, [.commandResolved entryId rs.flatten])

/-- The continuation fired by `pending.reject(err)`: for the auth
entry, `connect`'s catch runs — `setState(ERROR)`, `cleanup()` (failing
any remaining entries), and the error surfaces from `connect`; for a
command entry, `execute`'s catch wraps the error in
`COMMAND_FAILED`. -/
def applyReject (c : Client) (entryId : Int) (e : PendingResponse)
    (err : RconErrorType) : Client × List Event :=
  match e.kind with
  | .auth =>
    let r := cleanup { c with state := ConnectionState.error }
    (r.1, r.2 ++ [.connectFailed err])
  | .command => (c, [.commandRejected entryId .commandFailed])

/-- `RconClient.handlePacket`: (1) `id == -1` (`AUTH_FAILURE_ID`)
rejects the *first* pending entry with `AUTH_FAILED`; (2) otherwise
look the id up as a command id — if absent, scan for a terminator id
and, when found, delete that entry and resolve it with its collected
fragments; if present and the state is `AUTHENTICATING`, resolve the
auth entry with `[]`; if present and the packet is a type-0
`RESPONSE_VALUE`, either resolve on the entry's own terminator id or
append the body to the fragment list; any other type is ignored. -/
def handlePacket (c : Client) (p : RconPacket) : Client × List Event :=
  if p.id = -1 then
    match c.pending.head? with
    | none => (c, [])
    | some q =>
      applyReject { c with pending := deleteEntry q.1 c.pending } q.1 q.2
        .authFailed
  else
    match lookupEntry p.id c.pending with
    | none =>
      match findTerminator p.id c.pending with
      | some q =>
        applyResolve { c with pending := deleteEntry q.1 c.pending } q.1 q.2
          q.2.responses
      | none => (c, [])
    | some pending =>
      if c.state = ConnectionState.authenticating then
        applyResolve { c with pending := deleteEntry p.id c.pending } p.id
          pending []
      else if p.type = 0 then
        if pending.terminatorId = some p.id then
          applyResolve { c with pending := deleteEntry p.id c.pending } p.id
            pending pending.responses
        else
          let upd : PendingResponse :=
            { pending with responses := pending.responses ++ [p.body] }
          ({ c with pending := setEntry p.id upd c.pending }, [])
      else (c, [])

/-- `getNextRequestId`: post-increment; wrap back to 1 above 999999. -/
def getNextRequestId (c : Client) : Int × Client :=
  let id := c.requestId
  let next := c.requestId + 1
  ((id : Int), { c with requestId := if 999999 < next then 1 else next })

/-- `execute`: reject with `NOT_AUTHENTICATED` unless `AUTHENTICATED`,
touching nothing; otherwise allocate `commandId` and `terminatorId`,
send the `EXECCOMMAND` packet and the empty `RESPONSE_VALUE` terminator
packet, and register the in-flight entry (`waitForResponse`).  A
`sendPacket` throw is caught and wrapped in `COMMAND_FAILED` before any
entry is registered. -/
def execute (c : Client) (command : List Nat) :
    Client × List (List Nat) × Except RconErrorType Unit :=
  if c.state ≠ ConnectionState.authenticated then
    (c, [], .error .notAuthenticated)
  else
    let r1 := getNextRequestId c
    let commandId := r1.1
    let r2 := getNextRequestId r1.2
    let terminatorId := r2.1
    let c1 := r2.2
    match sendPacket commandId 2 command with
    | .error _ => (c1, [], .error .commandFailed)
    | .ok w1 =>
      match sendPacket terminatorId 0 [] with
      | .error _ => (c1, [w1], .error .commandFailed)
      | .ok w2 =>
        let entry : PendingResponse := ⟨.command, some terminatorId, []⟩
        ({ c1 with pending := setEntry commandId entry c1.pending },
          [w1, w2], .ok ())

end Source

/-- **C3.** With the client `AUTHENTICATED` and an in-flight execute
entry keyed by `command_id` with terminator `terminator_id`: every
received type-0 packet whose id equals `command_id` appends its body to
the entry's fragment list (at the end, so fragments stay in arrival
order), producing no event; and a received packet whose id equals
`terminator_id` (looked up first as a command id, then found by the
terminator scan) deletes the entry and resolves the execute with the
byte-wise concatenation of the collected fragments — `[]` resolves to
the empty string. -/
theorem c3_source_multifragment_assembly (c : Source.Client)
    (cid tid : Int) (e : Source.PendingResponse) (p q : Source.RconPacket)
    (hstate : c.state = ConnectionState.authenticated)
    (hcid : cid ≠ -1) (htid : tid ≠ -1) (hne : tid ≠ cid)
    (hkind : e.kind = Source.EntryKind.command)
    (hterm : e.terminatorId = some tid)
    (hpid : p.id = cid) (hpty : p.type = 0)
    (hqid : q.id = tid) :
    (Source.lookupEntry cid c.pending = some e →
      Source.handlePacket c p =
        ({ c with pending := Source.setEntry cid
                      ⟨e.kind, e.terminatorId, e.responses ++ [p.body]⟩
                      c.pending },
          [])) ∧
    (Source.lookupEntry tid c.pending = none →
      Source.findTerminator tid c.pending = some (cid, e) →
      Source.handlePacket c q =
        ({ c with pending := Source.deleteEntry cid c.pending },
          [Source.Event.commandResolved cid e.responses.flatten])) := by
  constructor
  · intro hlook
    simp [Source.handlePacket, hpid, hpty, hlook, hstate, hcid, hne, hterm]
  · intro hnone hfind
    simp [Source.handlePacket, hqid, htid, hnone, hfind,
      Source.applyResolve, hkind]

theorem c3_source_multifragment_assembly_witness :
    Source.handlePacket
        ⟨ConnectionState.authenticated, 3,
          [(5, ⟨Source.EntryKind.command, some 6, [[102, 111, 111]]⟩)], []⟩
        ⟨13, 5, 0, [98, 97, 114]⟩ =
      (⟨ConnectionState.authenticated, 3,
          [(5, ⟨Source.EntryKind.command, some 6,
            [[102, 111, 111], [98, 97, 114]]⟩)], []⟩, []) ∧
    Source.handlePacket
        ⟨ConnectionState.authenticated, 3,
          [(5, ⟨Source.EntryKind.command, some 6,
            [[102, 111, 111], [98, 97, 114]]⟩)], []⟩
        ⟨10, 6, 0, []⟩ =
      (⟨ConnectionState.authenticated, 3, [], []⟩,
        [Source.Event.commandResolved 5 [102, 111, 111, 98, 97, 114]]) := by
  constructor
  · exact ((c3_source_multifragment_assembly
      ⟨ConnectionState.authenticated, 3,
        [(5, ⟨Source.EntryKind.command, some 6, [[102, 111, 111]]⟩)], []⟩
      5 6 ⟨Source.EntryKind.command, some 6, [[102, 111, 111]]⟩
      ⟨13, 5, 0, [98, 97, 114]⟩ ⟨10, 6, 0, []⟩ rfl
      (by decide) (by decide) (by decide) rfl rfl rfl rfl rfl).1
      (by decide)).trans (by decide)
  · exact ((c3_source_multifragment_assembly
      ⟨ConnectionState.authenticated, 3,
        [(5, ⟨Source.EntryKind.command, some 6,
          [[102, 111, 111], [98, 97, 114]]⟩)], []⟩
      5 6 ⟨Source.EntryKind.command, some 6, [[102, 111, 111], [98, 97, 114]]⟩
      ⟨13, 5, 0, [98, 97, 114]⟩ ⟨10, 6, 0, []⟩ rfl
      (by decide) (by decide) (by decide) rfl rfl rfl rfl rfl).2
      (by decide) (by decide)).trans (by decide)

/-- **C4.** During `AUTHENTICATING`, with the auth request's entry the
only pending one: any received packet with `id == -1` rejects it with
`AUTH_FAILED` — `connect` fails and the session is torn down (state
`ERROR`, table and buffer cleared); a received packet whose id equals
the auth request's id and whose type is 2 completes authentication —
the state becomes `AUTHENTICATED` and `authenticated` is emitted. -/
theorem c4_source_auth_response (c : Source.Client) (aid : Int)
    (e : Source.PendingResponse) (p q : Source.RconPacket)
    (hstate : c.state = ConnectionState.authenticating)
    (hpend : c.pending = [(aid, e)])
    (hkind : e.kind = Source.EntryKind.auth)
    (haid : aid ≠ -1)
    (hpid : p.id = -1)
    (hqid : q.id = aid) (_hqty : q.type = 2) :
    Source.handlePacket c p =
      ({ c with
          state := ConnectionState.error
          pending := []
          receiveBuffer := [] },
        [Source.Event.connectFailed RconErrorType.authFailed]) ∧
    Source.handlePacket c q =
      ({ c with state := ConnectionState.authenticated, pending := [] },
        [Source.Event.authenticated]) := by
  constructor
  · simp [Source.handlePacket, hpid, hpend, Source.applyReject, hkind,
      Source.deleteEntry, Source.cleanup]
  · simp [Source.handlePacket, hqid, haid, hpend, hstate,
      Source.lookupEntry, Source.applyResolve, hkind, Source.deleteEntry]

theorem c4_source_auth_response_witness :
    Source.handlePacket
        ⟨ConnectionState.authenticating, 2,
          [(1, ⟨Source.EntryKind.auth, none, []⟩)], []⟩
        ⟨10, -1, 0, []⟩ =
      (⟨ConnectionState.error, 2, [], []⟩,
        [Source.Event.connectFailed RconErrorType.authFailed]) ∧
    Source.handlePacket
        ⟨ConnectionState.authenticating, 2,
          [(1, ⟨Source.EntryKind.auth, none, []⟩)], []⟩
        ⟨10, 1, 2, []⟩ =
      (⟨ConnectionState.authenticated, 2, [], []⟩,
        [Source.Event.authenticated]) := by
  constructor
  · exact (c4_source_auth_response
      ⟨ConnectionState.authenticating, 2,
        [(1, ⟨Source.EntryKind.auth, none, []⟩)], []⟩
      1 ⟨Source.EntryKind.auth, none, []⟩ ⟨10, -1, 0, []⟩ ⟨10, 1, 2, []⟩
      rfl rfl rfl (by decide) rfl rfl rfl).1.trans (by decide)
  · exact (c4_source_auth_response
      ⟨ConnectionState.authenticating, 2,
        [(1, ⟨Source.EntryKind.auth, none, []⟩)], []⟩
      1 ⟨Source.EntryKind.auth, none, []⟩ ⟨10, -1, 0, []⟩ ⟨10, 1, 2, []⟩
      rfl rfl rfl (by decide) rfl rfl rfl).2.trans (by decide)

/-- **C5.** In any state other than `AUTHENTICATED`, `execute` — on
either client — fails with `NOT_AUTHENTICATED`, writes nothing to the
transport, and leaves the client (state, correlation table, id/sequence
counter) unchanged. -/
theorem c5_execute_requires_authentication (s : Source.Client)
    (b : BattlEye.Client) (cmd1 cmd2 : List Nat)
    (hs : s.state ≠ ConnectionState.authenticated)
    (hb : b.state ≠ ConnectionState.authenticated) :
    Source.execute s cmd1 =
      (s, [], Except.error RconErrorType.notAuthenticated) ∧
    BattlEye.execute b cmd2 =
      (b, [], Except.error RconErrorType.notAuthenticated) := by
  constructor
  · unfold Source.execute
    rw [if_pos hs]
  · unfold BattlEye.execute
    rw [if_pos hb]

theorem c5_execute_requires_authentication_witness :
    ((⟨ConnectionState.connected, 1, [], []⟩ : Source.Client).state ≠
        ConnectionState.authenticated) ∧
      (Source.execute ⟨ConnectionState.connected, 1, [], []⟩ [108] =
        (⟨ConnectionState.connected, 1, [], []⟩, [],
          Except.error RconErrorType.notAuthenticated) ∧
      BattlEye.execute ⟨ConnectionState.disconnected, 0, [], false⟩ [108] =
        (⟨ConnectionState.disconnected, 0, [], false⟩, [],
          Except.error RconErrorType.notAuthenticated)) :=
  ⟨by decide,
    c5_execute_requires_authentication _ _ [108] [108] (by decide) (by decide)⟩

/-- **C6.** `disconnect()` — on either client — never fails (it is a
total function), empties the set of pending requests, fails every
previously pending entry with `CONNECTION_FAILED` (`Connection closed`)
during `cleanup`, i.e. before the transition to `DISCONNECTED` and the
`disconnected` event, and leaves the state `DISCONNECTED`. -/
theorem c6_disconnect_total_cleanup (s : Source.Client)
    (b : BattlEye.Client) :
    Source.disconnect s =
      ({ s with
          state := ConnectionState.disconnected
          pending := []
          receiveBuffer := [] },
        s.pending.map
            (fun q => Source.Event.entryFailed q.1 RconErrorType.connectionFailed) ++
          [Source.Event.disconnected]) ∧
    BattlEye.disconnect b =
      ({ b with state := ConnectionState.disconnected, pendingCommands := [] },
        b.pendingCommands.map
            (fun s => BattlEye.Event.entryFailed s RconErrorType.connectionFailed) ++
          [BattlEye.Event.disconnected]) :=
  ⟨rfl, rfl⟩

/-- **C8.** While the BattlEye client is `AUTHENTICATED`, one heartbeat
tick sends exactly the empty command datagram `{0x01, seq, ""}`
(wrapped by `sendPacket`), advances only the sequence counter, and
leaves the pending-command correlation table unchanged — no in-flight
entry is registered.  `heartbeatTick` is total: a send error is caught
inside the tick and never propagated as a fault of any operation. -/
theorem c8_heartbeat_fire_and_forget (c : BattlEye.Client)
    (hauth : c.state = ConnectionState.authenticated) :
    BattlEye.heartbeatTick c =
      ({ c with sequenceNumber := (c.sequenceNumber + 1) % 256 },
        [BattlEye.sendPacket [1, c.sequenceNumber]]) ∧
    (BattlEye.heartbeatTick c).1.pendingCommands = c.pendingCommands := by
  constructor
  · unfold BattlEye.heartbeatTick BattlEye.getNextSequenceNumber
    rw [if_pos hauth]
  · unfold BattlEye.heartbeatTick BattlEye.getNextSequenceNumber
    rw [if_pos hauth]

theorem c8_heartbeat_fire_and_forget_witness :
    ((⟨ConnectionState.authenticated, 7, [3], false⟩ : BattlEye.Client).state =
        ConnectionState.authenticated) ∧
      (BattlEye.heartbeatTick ⟨ConnectionState.authenticated, 7, [3], false⟩ =
        (⟨ConnectionState.authenticated, 8, [3], false⟩,
          [BattlEye.sendPacket [1, 7]]) ∧
      (BattlEye.heartbeatTick
          ⟨ConnectionState.authenticated, 7, [3], false⟩).1.pendingCommands =
        [3]) := by
  refine ⟨by decide, ?_⟩
  have h := c8_heartbeat_fire_and_forget
    ⟨ConnectionState.authenticated, 7, [3], false⟩ (by decide)
  exact ⟨h.1.trans (by decide), h.2⟩

/-- **C10.** An inbound BattlEye command-response datagram (type
`0x01`) whose sequence number has no pending entry — a duplicate of an
already-resolved response, or the reply to a fire-and-forget heartbeat
— is dropped without effect: it passes validation, reaches
`handleCommandResponse`, finds no entry, and leaves the client
unchanged, emitting no event and writing nothing. -/
theorem c10_battleye_unmatched_response_dropped (c : BattlEye.Client)
    (seqNum : Nat) (rest : List Nat)
    (hnp : c.pendingCommands.contains seqNum = false)
    (hseq : seqNum < 256) (hrest : ∀ x ∈ rest, x < 256) :
    BattlEye.handleMessage c (BattlEye.sendPacket (1 :: seqNum :: rest)) =
      (c, [], []) := by
  have hv : BattlEye.validateMessage
      (BattlEye.sendPacket (1 :: seqNum :: rest)) =
      some (1 :: seqNum :: rest) := by
    apply BattlEye.validateMessage_sendPacket
    intro x hx
    rcases List.mem_cons.mp hx with h | h
    · omega
    rcases List.mem_cons.mp h with h2 | h2
    · omega
    · exact hrest x h2
  unfold BattlEye.handleMessage
  rw [hv]
  show BattlEye.handleCommandResponse c (1 :: seqNum :: rest) = (c, [], [])
  have hmem : seqNum ∉ c.pendingCommands := by simpa using hnp
  simp [BattlEye.handleCommandResponse, byteAt, hmem]

theorem c10_battleye_unmatched_response_dropped_witness :
    ((⟨ConnectionState.authenticated, 2, [4], false⟩ :
        BattlEye.Client).pendingCommands.contains 9 = false) ∧
      BattlEye.handleMessage ⟨ConnectionState.authenticated, 2, [4], false⟩
          (BattlEye.sendPacket [1, 9, 111, 107]) =
        (⟨ConnectionState.authenticated, 2, [4], false⟩, [], []) :=
  ⟨by decide,
    c10_battleye_unmatched_response_dropped _ 9 [111, 107] (by decide)
      (by decide) (by decide)⟩

theorem c1_source_encode_decode_roundtrip_witness :
    (-2147483648 ≤ (7 : Int) ∧ (7 : Int) < 2147483648) ∧
      (([104, 105] : List Nat).length ≤ 4086) ∧
      ∃ w, Source.sendPacket 7 2 [104, 105] = Except.ok w ∧
        Source.framerLoop w =
          ⟨[⟨((4 + 4 + ([104, 105] : List Nat).length + 2 : Nat) : Int), 7, 2,
            [104, 105]⟩], [], true⟩ :=
  ⟨⟨by decide, by decide⟩, by decide,
    c1_source_encode_decode_roundtrip 7 2 [104, 105] ⟨by decide, by decide⟩
      ⟨by decide, by decide⟩ (by decide)⟩
